/-
Verification of gdalmethods (WilliamsTravis/gdalmethods) against its
natural-language specification.

Shallow embedding of src/gdalmethods/gdalmethods.py: the pure parts of the
tiling pipeline (split_extent, tile_single, tile_raster), the raster writer
(to_raster), and the value mapper (Map_Values) are translated into executable
Lean definitions.  Projected coordinates live in an arbitrary linearly ordered
additive type (the Python uses IEEE doubles; every input relevant to the
claims is an exactly representable integer, and concrete instances below use
ℤ); raster cell values are integers.  External collaborators (GDAL open/warp,
the multiprocessing pool, the file system) are modelled explicitly: the file
system as a list of existing paths, gdalwarp as a success predicate per job,
and `Pool.imap` as processing jobs in an arbitrary completion order while
collecting results back in job-index order (the documented behaviour of
`imap`).  Python exceptions are modelled with `Except String`: an uncaught
exception is an `.error` result, a caught one is logged and execution
continues.
-/
import Mathlib

namespace Gdalmethods

/-! ## ExtentSplitter: `split_extent` (gdalmethods.py lines 458-489)

The Python builds `xs = [geom[0] + geom[1]*i for i in range(nx)]` and
`ys = [geom[3] + geom[-1]*i for i in range(ny)]` (the pixel-origin coordinate
of each column / row), computes `nc = np.sqrt(n)`, splits each coordinate list
with `np.array_split(.., nc)` (which truncates `nc` to `int(nc)`, i.e. takes
the floor of the square root), takes `[min(chunk), max(chunk)]` of each chunk,
and combines the bounds as `[xmin, ymin, xmax, ymax]` with the x-chunk as the
outer loop. -/

/-- `coords start step n` models `[start + step*i for i in range(n)]`
(exact additive arithmetic, accumulated step by step). -/
def coords [Add α] (start step : α) : Nat → List α
  | 0 => []
  | n + 1 => start :: coords (start + step) step n

/-- `isqrtDown k n` is the largest `j ≤ k` with `j*j ≤ n` (0 when none). -/
def isqrtDown : Nat → Nat → Nat
  | 0, _ => 0
  | k + 1, n => if (k + 1) * (k + 1) ≤ n then k + 1 else isqrtDown k n

/-- `int(np.sqrt(n))`: the floor of the square root of `n`
(`isqrt_eq_sqrt` below identifies it with `Nat.sqrt`). -/
def isqrt (n : Nat) : Nat := isqrtDown n n

/-- Section sizes used by `np.array_split(l, k)`: the first `l.length % k`
sections get `l.length / k + 1` elements, the remaining ones `l.length / k`. -/
def split_sizes (ntotal nsections : Nat) : List Nat :=
  List.replicate (ntotal % nsections) (ntotal / nsections + 1) ++
    List.replicate (nsections - ntotal % nsections) (ntotal / nsections)

/-- Cut a list into consecutive chunks of the given sizes. -/
def take_chunks : List Nat → List α → List (List α)
  | [], _ => []
  | s :: ss, l => l.take s :: take_chunks ss (l.drop s)

/-- `np.array_split(l, k)` for a scalar section count `k`. -/
def array_split (l : List α) (k : Nat) : List (List α) :=
  take_chunks (split_sizes l.length k) l

/-- Python `min` over a list (left fold; junk value on the empty list, where
Python would raise `ValueError`). -/
def listMin [Min α] [Inhabited α] : List α → α
  | [] => default
  | x :: xs => xs.foldl min x

/-- Python `max` over a list (left fold; junk value on the empty list). -/
def listMax [Max α] [Inhabited α] : List α → α
  | [] => default
  | x :: xs => xs.foldl max x

/-- An extent `[xmin, ymin, xmax, ymax]` in projected coordinates. -/
structure Extent (α : Type) where
  xmin : α
  ymin : α
  xmax : α
  ymax : α
deriving DecidableEq, Repr

/-- `split_extent` of gdalmethods.py, abstracted over the raster geometry that
the Python reads from the file: `x0 = geom[0]`, `dx = geom[1]`,
`y0 = geom[3]`, `dy = geom[-1]`, and the pixel dimensions `nx = width`,
`ny = height`.  `isqrt n` is `int(np.sqrt(n))`. -/
def split_extent [Add α] [Min α] [Max α] [Inhabited α]
    (x0 dx y0 dy : α) (nx ny : Nat) (n : Nat) : List (Extent α) :=
  let xs := coords x0 dx nx
  let ys := coords y0 dy ny
  let nc := isqrt n
  let xchunks := array_split xs nc
  let ychunks := array_split ys nc
  let xext := xchunks.map (fun c => (listMin c, listMax c))
  let yext := ychunks.map (fun c => (listMin c, listMax c))
  xext.flatMap (fun xe => yext.map (fun ye => Extent.mk xe.1 ye.1 xe.2 ye.2))

/-! ## TileWorker / TileScheduler: `tile_single`, `tile_raster` (lines 492-566)

`tile_single` computes the output name
`os.path.join(outfolder, basename(rfile).split(".")[0] + "_" + "{:02d}".format(chunk) + ".tif")`,
skips the gdalwarp call when the output path already exists, and otherwise
shells out to gdalwarp with `sp.call(..., stdout=PIPE, stderr=PIPE)` — whose
exit status it discards — and returns the output path unconditionally.
The file system is modelled as the list of existing paths, and the gdalwarp
subprocess as a success predicate on jobs (success creates the output file,
failure leaves the file system unchanged; neither raises). -/

/-- `"{:02d}".format(i)`: decimal digits left-padded with zeros to width 2. -/
def pad2 (i : Nat) : String := if i < 10 then "0" ++ toString i else toString i

/-- Split a character list at every occurrence of the separator (the
character-level core of Python `str.split`). -/
def splitOnChar (c : Char) : List Char → List (List Char)
  | [] => [[]]
  | a :: rest =>
    let r := splitOnChar c rest
    if a == c then [] :: r
    else (a :: r.headD []) :: r.tail

/-- `os.path.basename`: the component after the last path separator. -/
def basename (p : String) : String :=
  String.mk ((splitOnChar '/' p.data).getLastD p.data)

/-- `os.path.basename(rfile).split(".")[0]`. -/
def outbaseOf (rfile : String) : String :=
  String.mk ((splitOnChar '.' (basename rfile).data).headD [])

/-- One unit of scheduled tiling work, as bundled by `tile_raster`
(lines 520-524): `zip(extents, raster_files, chunknumbers, out_folders)`. -/
structure TileJob (α : Type) where
  extent : Extent α
  rfile : String
  chunk : Nat
  outfolder : String

/-- The output path `tile_single` builds for a job (lines 552-555). -/
def tileOutfile (job : TileJob α) : String :=
  job.outfolder ++ "/" ++ outbaseOf job.rfile ++ "_" ++ pad2 job.chunk ++ ".tif"

/-- `tile_single` (lines 536-566): returns the updated file system and the
returned output path.  `engine job = true` models a gdalwarp invocation that
succeeds and creates the file; `false` models a failing invocation (the code
never inspects the exit status, so failure has no further effect). -/
def tile_single (engine : TileJob α → Bool) (fs : List String) (job : TileJob α) :
    List String × String :=
  let outfile := tileOutfile job
  if outfile ∈ fs then (fs, outfile)
  else if engine job then (outfile :: fs, outfile)
  else (fs, outfile)

/-- The job list `tile_raster` bundles: one job per extent with its 0-based
chunk index. -/
def makeJobs (rfile outfolder : String) (extents : List (Extent α)) :
    List (TileJob α) :=
  extents.enum.map (fun p => TileJob.mk p.2 rfile p.1 outfolder)

/-- The worker pool: jobs are executed one by one in an arbitrary completion
order (a list of job indices), threading the shared file system through, and
each finished job contributes the pair (job index, returned path). -/
def runPool (engine : TileJob α → Bool) (jobs : List (TileJob α)) :
    List String → List Nat → List String × List (Nat × String)
  | fs, [] => (fs, [])
  | fs, i :: rest =>
    match jobs[i]? with
    | none => runPool engine jobs fs rest
    | some job =>
      let step := tile_single engine fs job
      let next := runPool engine jobs step.1 rest
      (next.1, (i, step.2) :: next.2)

/-- `Pool.imap` yields results in job-index order regardless of completion
order: collect the completed (index, result) pairs back by index. -/
def imapCollect (njobs : Nat) (completed : List (Nat × String)) : List String :=
  (List.range njobs).filterMap
    (fun i => (completed.find? (fun p => p.1 == i)).map (fun p => p.2))

/-- `tile_raster` (lines 492-533): splits the raster geometry into extents,
bundles one job per extent, runs the pool, and returns the final file system
together with the collected output paths.  (The `os.makedirs` call has no
further observable effect here and is not modelled.) -/
def tile_raster [Add α] [Min α] [Max α] [Inhabited α]
    (engine : TileJob α → Bool) (fs : List String) (rfile outfolder : String)
    (x0 dx y0 dy : α) (nx ny : Nat) (ntiles : Nat) (order : List Nat) :
    List String × List String :=
  let extents := split_extent x0 dx y0 dy nx ny ntiles
  let jobs := makeJobs rfile outfolder extents
  let run := runPool engine jobs fs order
  (run.1, imapCollect jobs.length run.2)

/-! ## `to_raster` (lines 597-667)

The creation-options local `cops` is assigned only inside the `if compress:`
branch but is always passed to `driver.Create(savepath, ..., options=cops)`;
with the default `compress=None` the name is unbound and Python raises
`NameError` before any file is created.  When a template raster is given, its
geometry, crs and no-data value override the arguments.  The geometry payload
is an opaque type parameter `γ` (the code copies it verbatim, never inspecting
it). -/

/-- The message of the `NameError` raised by `to_raster` when `compress` is
left at its default `None`: the local `cops` is only assigned inside the
`if compress:` branch yet is always passed to `driver.Create`. -/
def copsNameError : String := "NameError: name cops is not defined"

/-- A raster file as written by `to_raster`. -/
structure Raster (γ : Type) where
  path : String
  geometry : γ
  crs : String
  dtype : String
  array : List (List Int)
  navalue : Int
deriving DecidableEq

/-- `to_raster`: `.error` models an uncaught Python exception. -/
def to_raster (array : List (List Int)) (savepath : String) (crs : String)
    (geometry : γ) (template : Option (Raster γ)) (dtype : String)
    (compress : Option String) (navalue : Int) : Except String (Raster γ) :=
  match compress.map (fun c => ["compress=" ++ c]) with
  | none => .error copsNameError
  | some _cops =>
    match template with
    | some t => .ok (Raster.mk savepath t.geometry t.crs dtype array t.navalue)
    | none => .ok (Raster.mk savepath geometry crs dtype array navalue)

/-! ## `Map_Values` (lines 815-958)

`_map_try` looks a cell value up in the dictionary and returns `err_val` on
`KeyError`; `_map_single` opens the source, reads its projection, geotransform
and array (all outside any try block, so an unreadable source raises), then
inside a try block maps the array cell-wise and writes it with
`to_raster(new_array, dst, crs, geom, navalue=-9999)`, printing (and
swallowing) any exception from those two steps.  `map_files` fans the job list
out over `Pool.imap`; an exception escaping a worker is re-raised in the
parent when its result is reached, aborting the remaining iteration.  That
abort is modelled by running the jobs in order and stopping at the first
uncaught exception.  `map_file` bundles its arguments with
`list(src, dst, self.val_dict)` — the `list` builtin takes at most one
argument, so this raises `TypeError` before any mapping. -/

/-- A readable source raster: projection, geotransform, cell array. -/
structure Grid (γ : Type) where
  crs : String
  geom : γ
  array : List (List Int)
deriving DecidableEq

/-- The world `Map_Values` operates in: the readable source rasters, the set
of existing file paths, the rasters successfully written by `to_raster`, and
the per-file error printouts (source path, message). -/
structure MVWorld (γ : Type) where
  sources : List (String × Grid γ)
  files : List String
  rasters : List (String × Raster γ)
  log : List (String × String)
deriving DecidableEq

/-- `Map_Values._map_try` (lines 933-958): dictionary lookup with `err_val`
substituted on `KeyError`. -/
def map_try (val_dict : List (Int × Int)) (err_val : Int) (key : Int) : Int :=
  (val_dict.lookup key).getD err_val

/-- `np.vectorize(self._map_try)(val_dict, array)`: cell-wise application
over the 2-d array. -/
def map_array (val_dict : List (Int × Int)) (err_val : Int)
    (array : List (List Int)) : List (List Int) :=
  array.map (fun row => row.map (map_try val_dict err_val))

/-- Cell access in a 2-d array (row `i`, column `j`). -/
def getCell (array : List (List Int)) (i j : Nat) : Option Int :=
  (array[i]?).bind (fun row => row[j]?)

/-- `Map_Values._map_single` (lines 899-931).  The skip check, the unguarded
`gdal.Open`/`ReadAsArray`, and the try block around mapping + `to_raster`. -/
def map_single (val_dict : List (Int × Int)) (err_val : Int) (w : MVWorld γ)
    (src dst : String) : Except String (MVWorld γ) :=
  if dst ∈ w.files then .ok w
  else
    match w.sources.lookup src with
    | none => .error ("RuntimeError: unable to open " ++ src)
    | some g =>
      let new_array := map_array val_dict err_val g.array
      match to_raster new_array dst g.crs g.geom none "float32" none (-9999) with
      | .ok r =>
        .ok (MVWorld.mk w.sources (dst :: w.files) ((dst, r) :: w.rasters) w.log)
      | .error e =>
        .ok (MVWorld.mk w.sources w.files w.rasters ((src, e) :: w.log))

/-- The per-file loop of `map_files`: process (src, dst) pairs in order,
stopping at the first uncaught exception. -/
def map_files_go (val_dict : List (Int × Int)) (err_val : Int) :
    MVWorld γ → List (String × String) → Except String (MVWorld γ)
  | w, [] => .ok w
  | w, (s, d) :: rest =>
    match map_single val_dict err_val w s d with
    | .error e => .error e
    | .ok w' => map_files_go val_dict err_val w' rest

/-- `Map_Values.map_files` (lines 859-897): build destination paths
`os.path.join(out_folder, basename(file))`, run every (src, dst) job, and
return the destination list. -/
def map_files (val_dict : List (Int × Int)) (err_val : Int) (w : MVWorld γ)
    (src_files : List String) (out_folder : String) :
    Except String (MVWorld γ × List String) :=
  let dst_files := src_files.map (fun f => out_folder ++ "/" ++ basename f)
  match map_files_go val_dict err_val w (src_files.zip dst_files) with
  | .error e => .error e
  | .ok w' => .ok (w', dst_files)

/-- A Python value, as far as `map_file` manipulates them. -/
inductive PyVal where
  | str : String → PyVal
  | dict : List (Int × Int) → PyVal
deriving DecidableEq

/-- The Python `list` builtin: iterates its single optional argument; calling
it with more than one argument raises `TypeError`. -/
def list_builtin (args : List PyVal) : Except String (List PyVal) :=
  if args.length ≤ 1 then .ok args
  else .error ("TypeError: list expected at most 1 argument, got " ++
    toString args.length)

/-- `Map_Values.map_file` (lines 832-857): bundles the arguments with
`args = list(src, dst, self.val_dict)` and hands them to `_map_single`.
(The preceding `os.makedirs` has no bearing on the claims and is not
modelled.) -/
def map_file (val_dict : List (Int × Int)) (err_val : Int) (w : MVWorld γ)
    (src dst : String) : Except String (MVWorld γ) := do
  let args ← list_builtin [PyVal.str src, PyVal.str dst, PyVal.dict val_dict]
  match args with
  | [PyVal.str s, PyVal.str d, PyVal.dict vd] => map_single vd err_val w s d
  | _ => .error "IndexError: list index out of range"

/-! ## Properties of the extent splitter -/

theorem isqrtDown_sq_le (k n : Nat) : isqrtDown k n * isqrtDown k n ≤ n := by
  induction k with
  | zero => simp [isqrtDown]
  | succ k ih =>
    unfold isqrtDown
    split
    · assumption
    · exact ih

theorem le_isqrtDown (k n j : Nat) (hj : j ≤ k) (hsq : j * j ≤ n) :
    j ≤ isqrtDown k n := by
  induction k with
  | zero => simpa [isqrtDown] using hj
  | succ k ih =>
    unfold isqrtDown
    split
    · exact hj
    · rename_i h
      have hne : j ≠ k + 1 := by
        intro e
        exact h (e ▸ hsq)
      exact ih (by omega)

/-- `isqrt` is the floor of the square root. -/
theorem isqrt_eq_sqrt (n : Nat) : isqrt n = Nat.sqrt n := by
  refine Nat.le_antisymm (Nat.le_sqrt.mpr (isqrtDown_sq_le n n)) ?_
  exact le_isqrtDown n n (Nat.sqrt n) (Nat.sqrt_le_self n) (Nat.sqrt_le n)

theorem isqrt_pos (n : Nat) (h : 1 ≤ n) : 1 ≤ isqrt n :=
  le_isqrtDown n n 1 h (by simpa using h)

theorem coords_length [Add α] (start step : α) (n : Nat) :
    (coords start step n).length = n := by
  induction n generalizing start with
  | zero => rfl
  | succ n ih => simp [coords, ih]

theorem take_chunks_length (ss : List Nat) (l : List α) :
    (take_chunks ss l).length = ss.length := by
  induction ss generalizing l with
  | nil => rfl
  | cons s ss ih => simp [take_chunks, ih]

theorem take_chunks_flatten (ss : List Nat) (l : List α) :
    (take_chunks ss l).flatten = l.take ss.sum := by
  induction ss generalizing l with
  | nil => simp [take_chunks]
  | cons s ss ih => simp [take_chunks, ih, List.take_add]

theorem split_sizes_length (L k : Nat) (hk : 1 ≤ k) :
    (split_sizes L k).length = k := by
  have := Nat.mod_lt L (show 0 < k by omega)
  simp only [split_sizes, List.length_append, List.length_replicate]
  omega

theorem split_sizes_sum (L k : Nat) (hk : 1 ≤ k) : (split_sizes L k).sum = L := by
  have hmod : L % k < k := Nat.mod_lt L (by omega)
  have h3 : L % k + k * (L / k) = L := Nat.mod_add_div L k
  have e1 : L % k * (L / k + 1) = L % k * (L / k) + L % k := by ring
  have e2 : (k - L % k) * (L / k) = k * (L / k) - L % k * (L / k) :=
    Nat.sub_mul k (L % k) (L / k)
  have h2 : L % k * (L / k) ≤ k * (L / k) :=
    Nat.mul_le_mul_right _ (le_of_lt hmod)
  simp only [split_sizes, List.sum_append, List.sum_replicate, smul_eq_mul]
  omega

theorem split_sizes_pos (L k : Nat) (hk : 1 ≤ k) (hkL : k ≤ L) :
    ∀ s ∈ split_sizes L k, 1 ≤ s := by
  intro s hs
  have hdiv : 1 ≤ L / k := (Nat.one_le_div_iff (by omega)).mpr hkL
  simp only [split_sizes, List.mem_append, List.mem_replicate] at hs
  rcases hs with ⟨-, rfl⟩ | ⟨-, rfl⟩ <;> omega

theorem array_split_length (l : List α) (k : Nat) (hk : 1 ≤ k) :
    (array_split l k).length = k := by
  simp [array_split, take_chunks_length, split_sizes_length _ _ hk]

theorem array_split_flatten (l : List α) (k : Nat) (hk : 1 ≤ k) :
    (array_split l k).flatten = l := by
  simp [array_split, take_chunks_flatten, split_sizes_sum _ _ hk]

theorem take_chunks_ne_nil (ss : List Nat) (l : List α)
    (hsum : ss.sum ≤ l.length) (hpos : ∀ s ∈ ss, 1 ≤ s) :
    ∀ c ∈ take_chunks ss l, c ≠ [] := by
  induction ss generalizing l with
  | nil => simp [take_chunks]
  | cons s ss ih =>
    intro c hc
    simp only [take_chunks, List.mem_cons] at hc
    rcases hc with rfl | hc
    · have hs : 1 ≤ s := hpos s (by simp)
      have hl : l ≠ [] := by
        intro e
        subst e
        simp [List.sum_cons] at hsum
        omega
      cases l with
      | nil => exact absurd rfl hl
      | cons a l =>
        cases s with
        | zero => omega
        | succ s => simp [List.take]
    · refine ih (l.drop s) ?_ (fun t ht => hpos t (by simp [ht])) c hc
      simp only [List.sum_cons] at hsum
      simp only [List.length_drop]
      omega

theorem array_split_ne_nil (l : List α) (k : Nat) (hk : 1 ≤ k)
    (hkL : k ≤ l.length) : ∀ c ∈ array_split l k, c ≠ [] := by
  refine take_chunks_ne_nil _ _ ?_ (split_sizes_pos _ _ hk hkL)
  rw [split_sizes_sum _ _ hk]

/-- C1, counterexample.  For the 2×2 unit-pixel raster whose extent is
`[0,2] × [0,2]` and `n = 2`, the claim demands `ceil(sqrt 2)^2 = 4` extents
whose union is the full extent `[0, 0, 2, 2]`; the code returns the single
extent `[0, 1, 1, 2]` (one chunk per axis, bounded by the pixel-origin
coordinates), so neither the count nor the exact cover holds. -/
theorem split_extent_ceil_count_cex :
    (split_extent (0 : ℤ) 1 2 (-1) 2 2 2).length ≠ 4 ∧
    split_extent (0 : ℤ) 1 2 (-1) 2 2 2 ≠ [Extent.mk 0 0 2 2] := by decide

/-- C1 (amended): for every grid and every `n ≥ 1` with
`k = isqrt n = floor(sqrt n)` at most the pixel count of each axis,
`split_extent` returns `floor(sqrt n)^2` extents (not `ceil(sqrt n)^2`); the
`k` chunks per axis are non-empty and concatenate back to the full
pixel-origin coordinate lists (each pixel row/column coordinate lands in
exactly one chunk — no coordinate lost or duplicated), but the extents are
min/max bounds of those pixel-origin coordinates, so the geometric union
omits the last pixel and has one-pixel gaps between adjacent chunks
(exhibited by the counterexample). -/
theorem split_extent_count_partition [Add α] [Min α] [Max α] [Inhabited α]
    (x0 dx y0 dy : α) (nx ny n : Nat) (hn : 1 ≤ n)
    (hx : isqrt n ≤ nx) (hy : isqrt n ≤ ny) :
    (split_extent x0 dx y0 dy nx ny n).length = isqrt n * isqrt n ∧
    (array_split (coords x0 dx nx) (isqrt n)).flatten = coords x0 dx nx ∧
    (array_split (coords y0 dy ny) (isqrt n)).flatten = coords y0 dy ny ∧
    (∀ c ∈ array_split (coords x0 dx nx) (isqrt n), c ≠ []) ∧
    (∀ c ∈ array_split (coords y0 dy ny) (isqrt n), c ≠ []) := by
  have hk := isqrt_pos n hn
  refine ⟨?_, array_split_flatten _ _ hk, array_split_flatten _ _ hk,
    array_split_ne_nil _ _ hk (by simpa [coords_length] using hx),
    array_split_ne_nil _ _ hk (by simpa [coords_length] using hy)⟩
  simp only [split_extent, List.length_flatMap, List.map_map]
  have hx1 : (array_split (coords x0 dx nx) (isqrt n)).length = isqrt n :=
    array_split_length _ _ hk
  have hy1 : (array_split (coords y0 dy ny) (isqrt n)).length = isqrt n :=
    array_split_length _ _ hk
  simp [Function.comp_def, List.length_map, hy1, List.map_const', hx1,
    List.sum_replicate, smul_eq_mul]

/-- C1, witness: the amended statement evaluated on a 4×4 unit-pixel grid
with `n = 4`. -/
theorem split_extent_count_partition_witness :
    (split_extent (0 : ℤ) 1 3 (-1) 4 4 4).length = isqrt 4 * isqrt 4 ∧
    (array_split (coords (0 : ℤ) 1 4) (isqrt 4)).flatten = coords (0 : ℤ) 1 4 ∧
    (array_split (coords (3 : ℤ) (-1) 4) (isqrt 4)).flatten =
      coords (3 : ℤ) (-1) 4 ∧
    (∀ c ∈ array_split (coords (0 : ℤ) 1 4) (isqrt 4), c ≠ []) ∧
    (∀ c ∈ array_split (coords (3 : ℤ) (-1) 4) (isqrt 4), c ≠ []) :=
  split_extent_count_partition 0 1 3 (-1) 4 4 4 (by decide) (by decide)
    (by decide)

/-! ## Properties of the tiling pipeline -/

/-- The result a finished job contributes, as a function of the job index. -/
def resOf (jobs : List (TileJob α)) (i : Nat) : String :=
  ((jobs[i]?).map tileOutfile).getD ""

theorem tile_single_snd (engine : TileJob α → Bool) (fs : List String)
    (job : TileJob α) : (tile_single engine fs job).2 = tileOutfile job := by
  simp only [tile_single]
  split
  · rfl
  · split <;> rfl

theorem tile_single_skip (engine : TileJob α → Bool) (fs : List String)
    (job : TileJob α) (h : tileOutfile job ∈ fs) :
    tile_single engine fs job = (fs, tileOutfile job) := by
  simp [tile_single, h]

theorem tile_single_subset (engine : TileJob α → Bool) (fs : List String)
    (job : TileJob α) : fs ⊆ (tile_single engine fs job).1 := by
  simp only [tile_single]
  split
  · exact fun a h => h
  · split
    · exact List.subset_cons_self _ _
    · exact fun a h => h

theorem runPool_fs_subset (engine : TileJob α → Bool) (jobs : List (TileJob α))
    (fs : List String) (order : List Nat) :
    fs ⊆ (runPool engine jobs fs order).1 := by
  induction order generalizing fs with
  | nil => exact fun a h => h
  | cons i rest ih =>
    cases hj : jobs[i]? with
    | none => simpa [runPool, hj] using ih fs
    | some job =>
      simp only [runPool, hj]
      exact fun a ha => ih _ (tile_single_subset _ _ _ ha)

theorem runPool_snd (engine : TileJob α → Bool) (jobs : List (TileJob α))
    (fs : List String) (order : List Nat)
    (h : ∀ i ∈ order, i < jobs.length) :
    (runPool engine jobs fs order).2 =
      order.map (fun i => (i, resOf jobs i)) := by
  induction order generalizing fs with
  | nil => rfl
  | cons i rest ih =>
    have hi : i < jobs.length := h i (by simp)
    have hj : jobs[i]? = some jobs[i] := List.getElem?_eq_getElem hi
    simp only [runPool, hj, List.map_cons]
    congr 1
    · rw [tile_single_snd]
      simp [resOf, hj]
    · exact ih _ (fun j hjr => h j (List.mem_cons_of_mem _ hjr))

theorem find_pair_self (i : Nat) (g : Nat → String) (order : List Nat)
    (h : i ∈ order) :
    (order.map (fun j => (j, g j))).find? (fun p => p.1 == i) = some (i, g i) := by
  induction order with
  | nil => cases h
  | cons j rest ih =>
    by_cases hj : j = i
    · subst hj
      simp
    · have hmem : i ∈ rest := by
        rcases List.mem_cons.mp h with rfl | hm
        · exact absurd rfl hj
        · exact hm
      rw [List.map_cons, List.find?_cons_of_neg _ (by simpa using hj), ih hmem]

theorem filterMap_eq_map_of (l : List β) (f : β → Option σ) (g : β → σ)
    (h : ∀ a ∈ l, f a = some (g a)) : l.filterMap f = l.map g := by
  induction l with
  | nil => rfl
  | cons a l ih =>
    rw [List.filterMap_cons, h a (by simp), List.map_cons,
      ih (fun b hb => h b (by simp [hb]))]

theorem imapCollect_perm (n : Nat) (F : Nat → String) (order : List Nat)
    (hperm : order.Perm (List.range n)) :
    imapCollect n (order.map (fun i => (i, F i))) = (List.range n).map F := by
  refine filterMap_eq_map_of _ _ _ ?_
  intro i hi
  rw [find_pair_self i F order (hperm.mem_iff.mpr hi)]
  rfl

theorem range_map_resOf (jobs : List (TileJob α)) :
    (List.range jobs.length).map (resOf jobs) = jobs.map tileOutfile := by
  induction jobs with
  | nil => rfl
  | cons j js ih =>
    rw [List.length_cons, List.range_succ_eq_map, List.map_cons, List.map_map]
    congr 1
    · simp [resOf]
    · rw [← ih]
      refine List.map_congr_left (fun i hi => ?_)
      simp [resOf, Function.comp_def]

theorem makeJobs_length (rfile outfolder : String) (extents : List (Extent α)) :
    (makeJobs rfile outfolder extents).length = extents.length := by
  simp [makeJobs]

/-- The collected result list of a tiling run is the per-job output paths in
job-index order, for every completion order that is a permutation of the job
indices and every engine behaviour. -/
theorem tile_raster_results [Add α] [Min α] [Max α] [Inhabited α]
    (engine : TileJob α → Bool) (fs : List String) (rfile outfolder : String)
    (x0 dx y0 dy : α) (nx ny ntiles : Nat) (order : List Nat)
    (hperm : order.Perm
      (List.range (split_extent x0 dx y0 dy nx ny ntiles).length)) :
    (tile_raster engine fs rfile outfolder x0 dx y0 dy nx ny ntiles order).2 =
      (makeJobs rfile outfolder (split_extent x0 dx y0 dy nx ny ntiles)).map
        tileOutfile := by
  have hlen : (makeJobs rfile outfolder
      (split_extent x0 dx y0 dy nx ny ntiles)).length =
      (split_extent x0 dx y0 dy nx ny ntiles).length := makeJobs_length _ _ _
  have hperm' : order.Perm (List.range (makeJobs rfile outfolder
      (split_extent x0 dx y0 dy nx ny ntiles)).length) := by
    rw [hlen]
    exact hperm
  have hbound : ∀ i ∈ order, i < (makeJobs rfile outfolder
      (split_extent x0 dx y0 dy nx ny ntiles)).length := by
    intro i hi
    exact List.mem_range.mp (hperm'.mem_iff.mp hi)
  simp only [tile_raster]
  rw [runPool_snd _ _ _ _ hbound, imapCollect_perm _ _ _ hperm',
    range_map_resOf]

theorem runPool_creates (engine : TileJob α → Bool)
    (hE : ∀ job, engine job = true) (jobs : List (TileJob α))
    (fs : List String) (order : List Nat) :
    ∀ i ∈ order, ∀ job, jobs[i]? = some job →
      tileOutfile job ∈ (runPool engine jobs fs order).1 := by
  induction order generalizing fs with
  | nil =>
    intro i hi
    cases hi
  | cons i' rest ih =>
    intro i hi job hjob
    rcases List.mem_cons.mp hi with rfl | hmem
    · simp only [runPool, hjob]
      refine runPool_fs_subset _ _ _ _ ?_
      simp only [tile_single]
      split
      · assumption
      · rw [hE job]
        simp
    · cases hj : jobs[i']? with
      | none =>
        simp only [runPool, hj]
        exact ih fs i hmem job hjob
      | some job' =>
        simp only [runPool, hj]
        exact ih _ i hmem job hjob

theorem runPool_allskip (engine : TileJob α → Bool) (jobs : List (TileJob α))
    (fs : List String) (order : List Nat)
    (h : ∀ i ∈ order, ∀ job, jobs[i]? = some job → tileOutfile job ∈ fs) :
    (runPool engine jobs fs order).1 = fs := by
  induction order with
  | nil => rfl
  | cons i rest ih =>
    cases hj : jobs[i]? with
    | none =>
      simp only [runPool, hj]
      exact ih (fun i' hi' job hjob => h i' (List.mem_cons_of_mem _ hi') job hjob)
    | some job =>
      simp only [runPool, hj]
      rw [tile_single_skip _ _ _ (h i (by simp) job hj)]
      exact ih (fun i' hi' job' hjob' => h i' (List.mem_cons_of_mem _ hi') job' hjob')

/-- C6: each tile's output filename is the deterministic
`outfolder/basename-stem_XX.tif` with a zero-padded two-digit index (two
digits for every index below 100); a job whose output path already exists
performs no extraction work; and re-running the whole pipeline over the file
set produced by a completed run (gdalwarp succeeding on every job) leaves the
file set unchanged and returns the identical result list. -/
theorem tile_idempotent [Add α] [Min α] [Max α] [Inhabited α]
    (engine : TileJob α → Bool) (hE : ∀ job : TileJob α, engine job = true)
    (fs : List String) (rfile outfolder : String) (x0 dx y0 dy : α)
    (nx ny ntiles : Nat) (order1 order2 : List Nat)
    (h1 : order1.Perm
      (List.range (split_extent x0 dx y0 dy nx ny ntiles).length))
    (h2 : order2.Perm
      (List.range (split_extent x0 dx y0 dy nx ny ntiles).length)) :
    (∀ job : TileJob α, tileOutfile job =
      job.outfolder ++ "/" ++ outbaseOf job.rfile ++ "_" ++ pad2 job.chunk ++
        ".tif") ∧
    (∀ i, i < 100 → (pad2 i).length = 2) ∧
    (∀ (fs' : List String) (job : TileJob α), tileOutfile job ∈ fs' →
      tile_single engine fs' job = (fs', tileOutfile job)) ∧
    (tile_raster engine
        (tile_raster engine fs rfile outfolder x0 dx y0 dy nx ny ntiles
          order1).1 rfile outfolder x0 dx y0 dy nx ny ntiles order2).1 =
      (tile_raster engine fs rfile outfolder x0 dx y0 dy nx ny ntiles
        order1).1 ∧
    (tile_raster engine
        (tile_raster engine fs rfile outfolder x0 dx y0 dy nx ny ntiles
          order1).1 rfile outfolder x0 dx y0 dy nx ny ntiles order2).2 =
      (tile_raster engine fs rfile outfolder x0 dx y0 dy nx ny ntiles
        order1).2 := by
  refine ⟨fun job => rfl, by decide, fun fs' job h => tile_single_skip _ _ _ h,
    ?_, ?_⟩
  · simp only [tile_raster]
    refine runPool_allskip _ _ _ _ ?_
    intro i hi job hjob
    have hlen : i < (makeJobs rfile outfolder
        (split_extent x0 dx y0 dy nx ny ntiles)).length :=
      (List.getElem?_eq_some_iff.mp hjob).1
    have hmem1 : i ∈ order1 := by
      refine h1.mem_iff.mpr (List.mem_range.mpr ?_)
      rwa [makeJobs_length] at hlen
    exact runPool_creates engine hE _ fs order1 i hmem1 job hjob
  · rw [tile_raster_results engine _ rfile outfolder x0 dx y0 dy nx ny ntiles
      order2 h2,
      tile_raster_results engine fs rfile outfolder x0 dx y0 dy nx ny ntiles
      order1 h1]

/-- C6, witness: a completed run on the 2×2 unit-pixel raster with 4 tiles,
re-run with a different completion order. -/
theorem tile_idempotent_witness :
    (∀ job : TileJob ℤ, tileOutfile job =
      job.outfolder ++ "/" ++ outbaseOf job.rfile ++ "_" ++ pad2 job.chunk ++
        ".tif") ∧
    (∀ i, i < 100 → (pad2 i).length = 2) ∧
    (∀ (fs' : List String) (job : TileJob ℤ), tileOutfile job ∈ fs' →
      tile_single (fun _ => true) fs' job = (fs', tileOutfile job)) ∧
    (tile_raster (fun _ => true)
        (tile_raster (α := ℤ) (fun _ => true) [] "r.tif" "out" 0 1 2 (-1) 2 2 4
          [0, 1, 2, 3]).1 "r.tif" "out" 0 1 2 (-1) 2 2 4 [2, 3, 0, 1]).1 =
      (tile_raster (α := ℤ) (fun _ => true) [] "r.tif" "out" 0 1 2 (-1) 2 2 4
        [0, 1, 2, 3]).1 ∧
    (tile_raster (fun _ => true)
        (tile_raster (α := ℤ) (fun _ => true) [] "r.tif" "out" 0 1 2 (-1) 2 2 4
          [0, 1, 2, 3]).1 "r.tif" "out" 0 1 2 (-1) 2 2 4 [2, 3, 0, 1]).2 =
      (tile_raster (α := ℤ) (fun _ => true) [] "r.tif" "out" 0 1 2 (-1) 2 2 4
        [0, 1, 2, 3]).2 :=
  tile_idempotent (fun _ => true) (fun _ => rfl) [] "r.tif" "out" 0 1 2 (-1)
    2 2 4 [0, 1, 2, 3] [2, 3, 0, 1] (by decide) (by decide)

/-- C7, counterexample.  A failed warp is not reported in the job's result:
the worker's returned value for a failing engine equals the returned value
for a succeeding engine (the bare output path — there is no Failed status or
reason anywhere in the result), even though the failing run created no file. -/
theorem tile_failure_unreported_cex :
    (tile_single (fun _ => false) []
        (TileJob.mk (Extent.mk (0 : ℤ) 0 1 1) "r.tif" 0 "out")).2 =
      (tile_single (fun _ => true) []
        (TileJob.mk (Extent.mk (0 : ℤ) 0 1 1) "r.tif" 0 "out")).2 ∧
    "out/r_00.tif" ∉ (tile_single (fun _ => false) []
      (TileJob.mk (Extent.mk (0 : ℤ) 0 1 1) "r.tif" 0 "out")).1 := by decide

/-- C7 (amended): an engine failure during tile extraction never aborts the
sibling jobs, but it is silently ignored rather than reported: the failing
worker leaves the file system unchanged and still returns the would-be output
path (indistinguishable in the result from success — no Failed status or
reason), and the run's collected result list is the same for every engine
behaviour, each sibling job contributing its path. -/
theorem tile_failure_silent [Add α] [Min α] [Max α] [Inhabited α]
    (engine : TileJob α → Bool) (fs : List String) (job : TileJob α)
    (hfail : engine job = false) (hnew : tileOutfile job ∉ fs)
    (rfile outfolder : String) (x0 dx y0 dy : α) (nx ny ntiles : Nat)
    (order : List Nat)
    (hperm : order.Perm
      (List.range (split_extent x0 dx y0 dy nx ny ntiles).length)) :
    tile_single engine fs job = (fs, tileOutfile job) ∧
    ∀ (engine2 : TileJob α → Bool) (fs2 : List String),
      (tile_raster engine fs2 rfile outfolder x0 dx y0 dy nx ny ntiles
        order).2 =
      (tile_raster engine2 fs2 rfile outfolder x0 dx y0 dy nx ny ntiles
        order).2 := by
  constructor
  · simp [tile_single, hnew, hfail]
  · intro engine2 fs2
    rw [tile_raster_results engine fs2 rfile outfolder x0 dx y0 dy nx ny
      ntiles order hperm,
      tile_raster_results engine2 fs2 rfile outfolder x0 dx y0 dy nx ny
      ntiles order hperm]

/-- C7, witness: a job whose warp fails, inside a 4-tile run. -/
theorem tile_failure_silent_witness :
    tile_single (fun _ => false) []
        (TileJob.mk (Extent.mk (0 : ℤ) 0 1 1) "r.tif" 0 "out") =
      ([], tileOutfile (TileJob.mk (Extent.mk (0 : ℤ) 0 1 1) "r.tif" 0
        "out")) ∧
    ∀ (engine2 : TileJob ℤ → Bool) (fs2 : List String),
      (tile_raster (fun _ => false) fs2 "r.tif" "out" 0 1 2 (-1) 2 2 4
        [0, 1, 2, 3]).2 =
      (tile_raster engine2 fs2 "r.tif" "out" 0 1 2 (-1) 2 2 4
        [0, 1, 2, 3]).2 :=
  tile_failure_silent (fun _ => false) []
    (TileJob.mk (Extent.mk (0 : ℤ) 0 1 1) "r.tif" 0 "out") rfl (by decide)
    "r.tif" "out" 0 1 2 (-1) 2 2 4 [0, 1, 2, 3] (by decide)

/-- C8: for every completion order of the pool workers that is a permutation
of the job indices, and every engine behaviour, `tile_raster` returns the
results ordered by 0-based job index, matching the order of the extents
produced by the splitter. -/
theorem tile_results_index_order [Add α] [Min α] [Max α] [Inhabited α]
    (engine : TileJob α → Bool) (fs : List String) (rfile outfolder : String)
    (x0 dx y0 dy : α) (nx ny ntiles : Nat) (order : List Nat)
    (hperm : order.Perm
      (List.range (split_extent x0 dx y0 dy nx ny ntiles).length)) :
    (tile_raster engine fs rfile outfolder x0 dx y0 dy nx ny ntiles order).2 =
      (makeJobs rfile outfolder (split_extent x0 dx y0 dy nx ny ntiles)).map
        tileOutfile :=
  tile_raster_results engine fs rfile outfolder x0 dx y0 dy nx ny ntiles
    order hperm

/-- C8, witness: the 2×2 unit-pixel raster split into 4 tiles, with the
workers finishing in the order 3, 0, 2, 1. -/
theorem tile_results_index_order_witness :
    (tile_raster (α := ℤ) (fun _ => true) [] "r.tif" "out" 0 1 2 (-1) 2 2 4
        [3, 0, 2, 1]).2 =
      (makeJobs "r.tif" "out" (split_extent (0 : ℤ) 1 2 (-1) 2 2 4)).map
        tileOutfile :=
  tile_results_index_order (fun _ => true) [] "r.tif" "out" 0 1 2 (-1) 2 2 4
    [3, 0, 2, 1] (by decide)

set_option maxRecDepth 40000 in
/-- C2, counterexample.  On the 100×100 unit-pixel raster with extent
`{0, 0, 100, 100}`, splitting into 4 tiles does not return the four claimed
half-extents `[{0,0,50,50}, {0,50,50,100}, {50,0,100,50}, {50,50,100,100}]`. -/
theorem split_extent_square4_cex :
    split_extent (0 : ℤ) 1 100 (-1) 100 100 4 ≠
      [Extent.mk 0 0 50 50, Extent.mk 0 50 50 100,
       Extent.mk 50 0 100 50, Extent.mk 50 50 100 100] := by decide

set_option maxRecDepth 40000 in
/-- C2 (amended): on the 100×100 unit-pixel raster with extent
`{0, 0, 100, 100}`, splitting into 4 tiles returns
`[{0,51,49,100}, {0,1,49,50}, {50,51,99,100}, {50,1,99,50}]`: the x-chunk is
the outer loop, the y-chunks run top-down (the row coordinate list descends
from `ymax`), and the bounds are pixel-origin coordinates, leaving one-pixel
gaps at 49/50, 50/51 and omitting the last column/row. -/
theorem split_extent_square4_actual :
    split_extent (0 : ℤ) 1 100 (-1) 100 100 4 =
      [Extent.mk 0 51 49 100, Extent.mk 0 1 49 50,
       Extent.mk 50 51 99 100, Extent.mk 50 1 99 50] := by decide

/-! ## Properties of `Map_Values` and `to_raster` -/

theorem zip_self_map (l : List σ) (g : σ → τ) :
    l.zip (l.map g) = l.map (fun a => (a, g a)) := by
  induction l with
  | nil => rfl
  | cons a l ih => simp [ih]

theorem map_single_skip (vd : List (Int × Int)) (ev : Int) (w : MVWorld γ)
    (s d : String) (h : d ∈ w.files) : map_single vd ev w s d = .ok w := by
  simp [map_single, h]

/-- A readable source whose destination does not exist yet is processed: the
mapping is computed, `to_raster` raises the `cops` NameError, the exception is
caught and printed, and nothing is written. -/
theorem map_single_processed (vd : List (Int × Int)) (ev : Int) (w : MVWorld γ)
    (s d : String) (g : Grid γ) (hd : d ∉ w.files)
    (hs : w.sources.lookup s = some g) :
    map_single vd ev w s d =
      .ok (MVWorld.mk w.sources w.files w.rasters
        ((s, copsNameError) :: w.log)) := by
  simp [map_single, hd, hs, to_raster]

theorem map_files_go_readable (vd : List (Int × Int)) (ev : Int)
    (w : MVWorld γ) (pairs : List (String × String))
    (h : ∀ p ∈ pairs, (w.sources.lookup p.1).isSome) :
    ∃ w', map_files_go vd ev w pairs = .ok w' ∧
      w'.sources = w.sources ∧ w'.files = w.files ∧
      (∀ q ∈ w.log, q ∈ w'.log) ∧
      (∀ p ∈ pairs, p.2 ∉ w.files → (p.1, copsNameError) ∈ w'.log) := by
  induction pairs generalizing w with
  | nil => exact ⟨w, rfl, rfl, rfl, fun q hq => hq, by simp⟩
  | cons p rest ih =>
    obtain ⟨s, d⟩ := p
    by_cases hd : d ∈ w.files
    · have heq : map_single vd ev w s d = .ok w := map_single_skip vd ev w s d hd
      obtain ⟨w', hgo, hsrc, hfiles, hlog, hpair⟩ :=
        ih w (fun q hq => h q (List.mem_cons_of_mem _ hq))
      refine ⟨w', ?_, hsrc, hfiles, hlog, ?_⟩
      · simp [map_files_go, heq, hgo]
      · intro q hq hqf
        rcases List.mem_cons.mp hq with rfl | hq'
        · exact absurd hd hqf
        · exact hpair q hq' hqf
    · obtain ⟨g, hg⟩ := Option.isSome_iff_exists.mp (h (s, d) (by simp))
      have heq := map_single_processed vd ev w s d g hd hg
      obtain ⟨w', hgo, hsrc, hfiles, hlog, hpair⟩ :=
        ih (MVWorld.mk w.sources w.files w.rasters
          ((s, copsNameError) :: w.log))
          (fun q hq => h q (List.mem_cons_of_mem _ hq))
      refine ⟨w', ?_, hsrc, hfiles, ?_, ?_⟩
      · simp [map_files_go, heq, hgo]
      · intro q hq
        exact hlog q (List.mem_cons_of_mem _ hq)
      · intro q hq hqf
        rcases List.mem_cons.mp hq with rfl | hq'
        · exact hlog (s, copsNameError) (by simp)
        · exact hpair q hq' hqf

/-- C3, counterexample.  A batch of two source files in which the first is
unreadable: `gdal.Open` raises outside the try block of `_map_single`, the
exception escapes the worker, and the whole batch aborts with the error —
there is no per-file report and the second (readable) file is never
processed. -/
theorem map_files_open_failure_aborts_cex :
    map_files (γ := Unit) [(1, 10)] (-9999)
        (MVWorld.mk [("good.tif", Grid.mk "WKT" () [[1]])] [] [] [])
        ["bad.tif", "good.tif"] "out" =
      .error "RuntimeError: unable to open bad.tif" := rfl

/-- C3 (amended): exceptions raised while mapping values or writing the
output are caught inside the per-file try block and logged against that file
only, so a batch whose sources are all readable completes and reports every
destination (even though the buggy `to_raster` write step fails for every
file, each failure is captured per-file); but a failure to open or read a
source raster is raised outside the try block, propagates, and aborts the
remaining files of the batch (counterexample above). -/
theorem map_files_readable_isolated (vd : List (Int × Int)) (ev : Int)
    (w : MVWorld γ) (srcs : List String) (folder : String)
    (h : ∀ f ∈ srcs, (w.sources.lookup f).isSome) :
    ∃ w', map_files vd ev w srcs folder =
        .ok (w', srcs.map (fun f => folder ++ "/" ++ basename f)) ∧
      w'.sources = w.sources ∧ w'.files = w.files ∧
      ∀ f ∈ srcs, folder ++ "/" ++ basename f ∉ w.files →
        (f, copsNameError) ∈ w'.log := by
  have hzip : srcs.zip (srcs.map (fun f => folder ++ "/" ++ basename f)) =
      srcs.map (fun f => (f, folder ++ "/" ++ basename f)) :=
    zip_self_map srcs _
  have hpairs : ∀ p ∈ srcs.map (fun f => (f, folder ++ "/" ++ basename f)),
      (w.sources.lookup p.1).isSome := by
    intro p hp
    obtain ⟨f, hf, rfl⟩ := List.mem_map.mp hp
    exact h f hf
  obtain ⟨w', hgo, hsrc, hfiles, hlog, hpair⟩ :=
    map_files_go_readable vd ev w _ hpairs
  refine ⟨w', ?_, hsrc, hfiles, ?_⟩
  · simp only [map_files, hzip, hgo]
  · intro f hf hnf
    exact hpair (f, folder ++ "/" ++ basename f)
      (List.mem_map.mpr ⟨f, hf, rfl⟩) hnf

/-- C3, witness: a batch of two readable files completes with both
destinations reported and a captured per-file error for each. -/
theorem map_files_readable_isolated_witness :
    ∃ w', map_files (γ := Unit) [(1, 10)] (-9999)
        (MVWorld.mk [("a.tif", Grid.mk "WKT" () [[1]]),
          ("b.tif", Grid.mk "WKT" () [[2]])] [] [] [])
        ["a.tif", "b.tif"] "out" =
        .ok (w', ["a.tif", "b.tif"].map (fun f => "out" ++ "/" ++ basename f)) ∧
      w'.sources = (MVWorld.mk (γ := Unit) [("a.tif", Grid.mk "WKT" () [[1]]),
          ("b.tif", Grid.mk "WKT" () [[2]])] [] [] []).sources ∧
      w'.files = (MVWorld.mk (γ := Unit) [("a.tif", Grid.mk "WKT" () [[1]]),
          ("b.tif", Grid.mk "WKT" () [[2]])] [] [] []).files ∧
      ∀ f ∈ ["a.tif", "b.tif"], "out" ++ "/" ++ basename f ∉
          (MVWorld.mk (γ := Unit) [("a.tif", Grid.mk "WKT" () [[1]]),
            ("b.tif", Grid.mk "WKT" () [[2]])] [] [] []).files →
        (f, copsNameError) ∈ w'.log :=
  map_files_readable_isolated [(1, 10)] (-9999)
    (MVWorld.mk [("a.tif", Grid.mk "WKT" () [[1]]),
      ("b.tif", Grid.mk "WKT" () [[2]])] [] [] [])
    ["a.tif", "b.tif"] "out" (by decide)

/-- C4: for every cell of the input array, the mapped array holds the
dictionary value when the cell value is a key of the value map, and the
fallback `err_val` when it is absent (no-data cells such as 255 simply miss
the lookup and receive the fallback); on the 2×2 grid `[[1,2],[3,255]]` with
map `{1:10, 2:20, 3:30}` and fallback `-9999` the result is
`[[10,20],[30,-9999]]`. -/
theorem map_values_cellwise (vd : List (Int × Int)) (ev : Int)
    (grid : List (List Int)) (i j : Nat) (v : Int)
    (h : getCell grid i j = some v) :
    (∀ m, vd.lookup v = some m →
      getCell (map_array vd ev grid) i j = some m) ∧
    (vd.lookup v = none → getCell (map_array vd ev grid) i j = some ev) ∧
    map_array [(1, 10), (2, 20), (3, 30)] (-9999) [[1, 2], [3, 255]] =
      [[10, 20], [30, -9999]] := by
  have key : getCell (map_array vd ev grid) i j = some (map_try vd ev v) := by
    unfold getCell map_array at *
    cases hrow : grid[i]? with
    | none =>
      rw [hrow] at h
      simp at h
    | some row =>
      rw [hrow] at h
      simp at h
      simp [List.getElem?_map, hrow, h]
  refine ⟨?_, ?_, by decide⟩
  · intro m hm
    rw [key]
    simp [map_try, hm]
  · intro hm
    rw [key]
    simp [map_try, hm]

/-- C4, witness: the no-data cell 255 of the scenario grid receives the
fallback. -/
theorem map_values_cellwise_witness :
    (∀ m, ([(1, 10), (2, 20), (3, 30)] : List (Int × Int)).lookup 255 = some m →
      getCell (map_array [(1, 10), (2, 20), (3, 30)] (-9999)
        [[1, 2], [3, 255]]) 1 1 = some m) ∧
    (([(1, 10), (2, 20), (3, 30)] : List (Int × Int)).lookup 255 = none →
      getCell (map_array [(1, 10), (2, 20), (3, 30)] (-9999)
        [[1, 2], [3, 255]]) 1 1 = some (-9999)) ∧
    map_array [(1, 10), (2, 20), (3, 30)] (-9999) [[1, 2], [3, 255]] =
      [[10, 20], [30, -9999]] :=
  map_values_cellwise [(1, 10), (2, 20), (3, 30)] (-9999) [[1, 2], [3, 255]]
    1 1 255 (by decide)

/-- C5 (code bug): no value-mapping run ever writes an output raster, so the
claimed GridSpec preservation never has a successful run to apply to.
`_map_single` calls `to_raster(new_array, dst, crs, geom, navalue=-9999)`
with `compress` left at its default `None`, `to_raster` raises the `cops`
NameError, and the per-file try block swallows it: on the scenario source the
run "succeeds" with no file created, no raster written, and only the printed
error as a trace.  (The intent — passing the source's projection and
geotransform verbatim to the writer — is visible in the call.) -/
theorem map_single_never_writes :
    map_single (γ := List ℤ) [(1, 10), (2, 20), (3, 30)] (-9999)
        (MVWorld.mk
          [("src.tif", Grid.mk "WKT" [0, 1, 0, 2, 0, -1] [[1, 2], [3, 255]])]
          [] [] [])
        "src.tif" "out/src.tif" =
      .ok (MVWorld.mk
        [("src.tif", Grid.mk "WKT" [0, 1, 0, 2, 0, -1] [[1, 2], [3, 255]])]
        [] [] [("src.tif", copsNameError)]) := rfl

/-- C9: with the default `compress=None`, `to_raster` raises the NameError
for the unbound `cops` on every input, and no output is created; supplying
any compression option lets the creation proceed. -/
theorem to_raster_default_nameerror (γ : Type) (array : List (List Int))
    (savepath crs : String) (geometry : γ) (template : Option (Raster γ))
    (dtype : String) (navalue : Int) :
    to_raster array savepath crs geometry template dtype none navalue =
      .error copsNameError ∧
    ∀ compress : String, ∃ r,
      to_raster array savepath crs geometry template dtype (some compress)
        navalue = .ok r := by
  refine ⟨rfl, ?_⟩
  intro c
  cases template with
  | none => exact ⟨_, rfl⟩
  | some t => exact ⟨_, rfl⟩

/-- C10: `map_file` bundles its arguments with `list(src, dst,
self.val_dict)`; the `list` builtin takes at most one argument, so every call
raises `TypeError` before any mapping happens. -/
theorem map_file_typeerror (γ : Type) (vd : List (Int × Int)) (ev : Int)
    (w : MVWorld γ) (src dst : String) :
    map_file vd ev w src dst =
      .error "TypeError: list expected at most 1 argument, got 3" := by
  simp [map_file, list_builtin]
  rfl

end Gdalmethods
